import Mathlib

/-!
Shallow embedding of the CHIP-8 interpreter core (src/chip8/src/lib.rs).

Machine integers are modelled as Nat with explicit reductions modulo 256
(u8) and 65536 (u16) exactly where the Rust code wraps.  Fixed arrays
(ram, screen, registers, stack, key states) are modelled as total
functions from Nat; every Rust array index is bounds-checked in the
model, and an out-of-bounds access (a Rust panic) is a `none` result.
The one source of nondeterminism, `rand::random()` in the Cxkk opcode,
is passed in as an explicit `rnd` argument.
-/

/-- The source constant FONTSET: 16 glyphs of 5 bytes each. -/
def FONTSET : List Nat :=
  [0xF0, 0x90, 0x90, 0x90, 0xF0,
   0x20, 0x60, 0x20, 0x20, 0x70,
   0xF0, 0x10, 0xF0, 0x80, 0xF0,
   0xF0, 0x10, 0xF0, 0x10, 0xF0,
   0x90, 0x90, 0xF0, 0x10, 0x10,
   0xF0, 0x80, 0xF0, 0x10, 0xF0,
   0xF0, 0x80, 0xF0, 0x90, 0xF0,
   0xF0, 0x10, 0x20, 0x40, 0x40,
   0xF0, 0x90, 0xF0, 0x90, 0xF0,
   0xF0, 0x90, 0xF0, 0x10, 0xF0,
   0xF0, 0x90, 0xF0, 0x90, 0x90,
   0xE0, 0x90, 0xE0, 0x90, 0xE0,
   0xF0, 0x80, 0x80, 0x80, 0xF0,
   0xE0, 0x90, 0x90, 0x90, 0xE0,
   0xF0, 0x80, 0xF0, 0x80, 0xF0,
   0xF0, 0x80, 0xF0, 0x80, 0x80]

def FONTSET_SIZE : Nat := 80
def SCREEN_WIDTH : Nat := 64
def SCREEN_HEIGHT : Nat := 32
def RAM_SIZE : Nat := 4096
def V_REGISTERS : Nat := 16
def STACK_SIZE : Nat := 16
def NUM_KEYS : Nat := 16
def START_ADDR : Nat := 0x200

/-- The interpreter state (struct Chip8). -/
structure Chip8 where
  program_counter : Nat
  ram : Nat → Nat
  screen : Nat → Bool
  v_registers : Nat → Nat
  i_register : Nat
  delay_timer_register : Nat
  sound_timer_register : Nat
  stack_pointer : Nat
  stack : Nat → Nat
  key_states : Nat → Bool

/-- Pointwise update of a Nat-valued array model. -/
def updf (f : Nat → Nat) (i v : Nat) : Nat → Nat :=
  fun j => if j = i then v else f j

/-- Pointwise update of a Bool-valued array model. -/
def updB (f : Nat → Bool) (i : Nat) (v : Bool) : Nat → Bool :=
  fun j => if j = i then v else f j

/-- Copy a list of bytes into ram starting at an offset
(`copy_from_slice`, in ascending order). -/
def writeList (f : Nat → Nat) (start : Nat) : List Nat → (Nat → Nat)
  | [] => f
  | b :: rest => writeList (updf f start b) (start + 1) rest

/-- Chip8::new: all fields zeroed, pc at 0x200, fontset copied into
the first 80 ram bytes. -/
def Chip8.new : Chip8 where
  program_counter := START_ADDR
  ram := writeList (fun _ => 0) 0 FONTSET
  screen := fun _ => false
  v_registers := fun _ => 0
  i_register := 0
  delay_timer_register := 0
  sound_timer_register := 0
  stack_pointer := 0
  stack := fun _ => 0
  key_states := fun _ => false

/-- Chip8::tick_timers: each countdown register is decremented when
above 0 and left alone otherwise. -/
def Chip8.tick_timers (s : Chip8) : Chip8 :=
  let s1 := if s.delay_timer_register > 0 then
      { s with delay_timer_register := s.delay_timer_register - 1 }
    else s
  if s1.sound_timer_register > 0 then
    { s1 with sound_timer_register := s1.sound_timer_register - 1 }
  else s1

/-- Chip8::push: stack[sp] := val, sp += 1; the array access faults
when sp is out of bounds. -/
def Chip8.push (s : Chip8) (val : Nat) : Option Chip8 :=
  if s.stack_pointer < STACK_SIZE then
    some { s with stack := updf s.stack s.stack_pointer val,
                  stack_pointer := s.stack_pointer + 1 }
  else none

/-- Chip8::pop: sp -= 1 (faulting on underflow), returns stack[sp];
the array access faults when the new sp is out of bounds. -/
def Chip8.pop (s : Chip8) : Option (Nat × Chip8) :=
  if 1 ≤ s.stack_pointer ∧ s.stack_pointer - 1 < STACK_SIZE then
    some (s.stack (s.stack_pointer - 1),
          { s with stack_pointer := s.stack_pointer - 1 })
  else none

/-- The ascending key scan of opcode Fx0A: try indices
i, i+1, ... for `fuel` steps, returning the first pressed index. -/
def scanKeysFrom (keys : Nat → Bool) (i fuel : Nat) : Option Nat :=
  match fuel with
  | 0 => none
  | f + 1 => if keys i then some i else scanKeysFrom keys (i + 1) f

/-- Target pixel index of sprite row r, bit b drawn at (xc, yc):
coordinates wrap modulo the screen dimensions, row-major index. -/
def sprPos (xc yc r b : Nat) : Nat :=
  (xc + b) % SCREEN_WIDTH + SCREEN_WIDTH * ((yc + r) % SCREEN_HEIGHT)

/-- One bit of one sprite row: when the sprite bit is set, the target
pixel is XOR-toggled and the collision flag accumulates the pixel's
pre-toggle value. -/
def drawBitStep (pixels xc yc r : Nat) (sf : (Nat → Bool) × Bool) (b : Nat) :
    (Nat → Bool) × Bool :=
  if pixels &&& (128 >>> b) ≠ 0 then
    let idx := sprPos xc yc r b
    (updB sf.1 idx (!(sf.1 idx)), sf.2 || sf.1 idx)
  else sf

/-- The nested sprite-draw loop of opcode Dxyn: rows in ascending
order, each row read from ram at i + r (faulting out of bounds), bits
0..8 in ascending order. -/
def drawRowsAux (ram : Nat → Nat) (i xc yc : Nat) :
    List Nat → (Nat → Bool) → Bool → Option ((Nat → Bool) × Bool)
  | [], scr, fl => some (scr, fl)
  | r :: rest, scr, fl =>
    if i + r < RAM_SIZE then
      let sf := (List.range 8).foldl (drawBitStep (ram (i + r)) xc yc r) (scr, fl)
      drawRowsAux ram i xc yc rest sf.1 sf.2
    else none

/-- Store registers 0..=x into ram starting at base (opcode Fx55). -/
def storeRegs (ram v : Nat → Nat) (base : Nat) : Nat → (Nat → Nat)
  | 0 => updf ram base (v 0)
  | x + 1 => updf (storeRegs ram v base x) (base + (x + 1)) (v (x + 1))

/-- Load ram starting at base into registers 0..=x (opcode Fx65). -/
def loadRegs (ram v : Nat → Nat) (base : Nat) : Nat → (Nat → Nat)
  | 0 => updf v 0 (ram base)
  | x + 1 => updf (loadRegs ram v base x) (x + 1) (ram (base + (x + 1)))

/-- The decoded instruction forms, one constructor per arm of the
match in Chip8::execute. -/
inductive Instr where
  | nop
  | cls
  | ret
  | jp (nnn : Nat)
  | call (nnn : Nat)
  | seByte (x kk : Nat)
  | sneByte (x kk : Nat)
  | seReg (x y : Nat)
  | ldByte (x kk : Nat)
  | addByte (x kk : Nat)
  | ldReg (x y : Nat)
  | orReg (x y : Nat)
  | andReg (x y : Nat)
  | xorReg (x y : Nat)
  | addCarry (x y : Nat)
  | subBorrow (x y : Nat)
  | shr (x : Nat)
  | subn (x y : Nat)
  | shl (x : Nat)
  | sneReg (x y : Nat)
  | ldI (nnn : Nat)
  | jpV0 (nnn : Nat)
  | rnd (x kk : Nat)
  | drw (x y n : Nat)
  | skp (x : Nat)
  | sknp (x : Nat)
  | ldVDt (x : Nat)
  | waitKey (x : Nat)
  | ldDtV (x : Nat)
  | ldStV (x : Nat)
  | addI (x : Nat)
  | ldFont (x : Nat)
  | bcd (x : Nat)
  | stRegs (x : Nat)
  | ldRegs (x : Nat)
deriving DecidableEq

/-- The nibble split and dispatch of Chip8::execute, as a decoder;
the match arms are rendered as an ordered chain of nibble tests (one
test per arm, in source order) and the fall-through arm (the panic)
is `none`. -/
def digit1 (opcode : Nat) : Nat := (opcode &&& 0xF000) >>> 12

def digit2 (opcode : Nat) : Nat := (opcode &&& 0x0F00) >>> 8

def digit3 (opcode : Nat) : Nat := (opcode &&& 0x00F0) >>> 4

def digit4 (opcode : Nat) : Nat := opcode &&& 0x000F

def decode (opcode : Nat) : Option Instr :=
  if digit1 opcode = 0x0 ∧ (digit2 opcode) = 0x0 ∧ (digit3 opcode) = 0x0 ∧ (digit4 opcode) = 0x0 then some .nop
  else if digit1 opcode = 0x0 ∧ (digit2 opcode) = 0x0 ∧ (digit3 opcode) = 0xE ∧ (digit4 opcode) = 0x0 then some .cls
  else if digit1 opcode = 0x0 ∧ (digit2 opcode) = 0x0 ∧ (digit3 opcode) = 0xE ∧ (digit4 opcode) = 0xE then some .ret
  else if digit1 opcode = 0x1 then some (.jp (opcode &&& 0x0FFF))
  else if digit1 opcode = 0x2 then some (.call (opcode &&& 0x0FFF))
  else if digit1 opcode = 0x3 then some (.seByte (digit2 opcode) (opcode &&& 0x00FF))
  else if digit1 opcode = 0x4 then some (.sneByte (digit2 opcode) (opcode &&& 0x00FF))
  else if digit1 opcode = 0x5 ∧ (digit4 opcode) = 0x0 then some (.seReg (digit2 opcode) (digit3 opcode))
  else if digit1 opcode = 0x6 then some (.ldByte (digit2 opcode) (opcode &&& 0x00FF))
  else if digit1 opcode = 0x7 then some (.addByte (digit2 opcode) (opcode &&& 0x00FF))
  else if digit1 opcode = 0x8 ∧ (digit4 opcode) = 0x0 then some (.ldReg (digit2 opcode) (digit3 opcode))
  else if digit1 opcode = 0x8 ∧ (digit4 opcode) = 0x1 then some (.orReg (digit2 opcode) (digit3 opcode))
  else if digit1 opcode = 0x8 ∧ (digit4 opcode) = 0x2 then some (.andReg (digit2 opcode) (digit3 opcode))
  else if digit1 opcode = 0x8 ∧ (digit4 opcode) = 0x3 then some (.xorReg (digit2 opcode) (digit3 opcode))
  else if digit1 opcode = 0x8 ∧ (digit4 opcode) = 0x4 then some (.addCarry (digit2 opcode) (digit3 opcode))
  else if digit1 opcode = 0x8 ∧ (digit4 opcode) = 0x5 then some (.subBorrow (digit2 opcode) (digit3 opcode))
  else if digit1 opcode = 0x8 ∧ (digit4 opcode) = 0x6 then some (.shr (digit2 opcode))
  else if digit1 opcode = 0x8 ∧ (digit4 opcode) = 0x7 then some (.subn (digit2 opcode) (digit3 opcode))
  else if digit1 opcode = 0x8 ∧ (digit4 opcode) = 0xE then some (.shl (digit2 opcode))
  else if digit1 opcode = 0x9 ∧ (digit4 opcode) = 0x0 then some (.sneReg (digit2 opcode) (digit3 opcode))
  else if digit1 opcode = 0xA then some (.ldI (opcode &&& 0x0FFF))
  else if digit1 opcode = 0xB then some (.jpV0 (opcode &&& 0x0FFF))
  else if digit1 opcode = 0xC then some (.rnd (digit2 opcode) (opcode &&& 0x00FF))
  else if digit1 opcode = 0xD then some (.drw (digit2 opcode) (digit3 opcode) (digit4 opcode))
  else if digit1 opcode = 0xE ∧ (digit3 opcode) = 0x9 ∧ (digit4 opcode) = 0xE then some (.skp (digit2 opcode))
  else if digit1 opcode = 0xE ∧ (digit3 opcode) = 0xA ∧ (digit4 opcode) = 0x1 then some (.sknp (digit2 opcode))
  else if digit1 opcode = 0xF ∧ (digit3 opcode) = 0x0 ∧ (digit4 opcode) = 0x7 then some (.ldVDt (digit2 opcode))
  else if digit1 opcode = 0xF ∧ (digit3 opcode) = 0x0 ∧ (digit4 opcode) = 0xA then some (.waitKey (digit2 opcode))
  else if digit1 opcode = 0xF ∧ (digit3 opcode) = 0x1 ∧ (digit4 opcode) = 0x5 then some (.ldDtV (digit2 opcode))
  else if digit1 opcode = 0xF ∧ (digit3 opcode) = 0x1 ∧ (digit4 opcode) = 0x8 then some (.ldStV (digit2 opcode))
  else if digit1 opcode = 0xF ∧ (digit3 opcode) = 0x1 ∧ (digit4 opcode) = 0xE then some (.addI (digit2 opcode))
  else if digit1 opcode = 0xF ∧ (digit3 opcode) = 0x2 ∧ (digit4 opcode) = 0x9 then some (.ldFont (digit2 opcode))
  else if digit1 opcode = 0xF ∧ (digit3 opcode) = 0x3 ∧ (digit4 opcode) = 0x3 then some (.bcd (digit2 opcode))
  else if digit1 opcode = 0xF ∧ (digit3 opcode) = 0x5 ∧ (digit4 opcode) = 0x5 then some (.stRegs (digit2 opcode))
  else if digit1 opcode = 0xF ∧ (digit3 opcode) = 0x6 ∧ (digit4 opcode) = 0x5 then some (.ldRegs (digit2 opcode))
  else none

/-- The per-arm bodies of Chip8::execute.  `rnd` feeds the Cxkk
random byte.  `none` models a Rust panic (array index out of
bounds / stack over- or underflow). -/
def execInstr (s : Chip8) (rnd : Nat) : Instr → Option Chip8
  | .nop => some s
  | .cls => some { s with screen := fun _ => false }
  | .ret => (s.pop).map fun rs => { rs.2 with program_counter := rs.1 }
  | .jp nnn => some { s with program_counter := nnn }
  | .call nnn => (s.push s.program_counter).map fun t =>
      { t with program_counter := nnn }
  | .seByte x kk =>
      some (if s.v_registers x = kk then
        { s with program_counter := (s.program_counter + 2) % 65536 } else s)
  | .sneByte x kk =>
      some (if s.v_registers x ≠ kk then
        { s with program_counter := (s.program_counter + 2) % 65536 } else s)
  | .seReg x y =>
      some (if s.v_registers x = s.v_registers y then
        { s with program_counter := (s.program_counter + 2) % 65536 } else s)
  | .ldByte x kk => some { s with v_registers := updf s.v_registers x kk }
  | .addByte x kk =>
      some { s with v_registers :=
                updf s.v_registers x ((s.v_registers x + kk) % 256) }
  | .ldReg x y =>
      some { s with v_registers := updf s.v_registers x (s.v_registers y) }
  | .orReg x y =>
      some { s with v_registers :=
                updf s.v_registers x (s.v_registers x ||| s.v_registers y) }
  | .andReg x y =>
      some { s with v_registers :=
                updf s.v_registers x (s.v_registers x &&& s.v_registers y) }
  | .xorReg x y =>
      some { s with v_registers :=
                updf s.v_registers x (s.v_registers x ^^^ s.v_registers y) }
  | .addCarry x y =>
      let new_vx := (s.v_registers x + s.v_registers y) % 256
      let new_vf := if 255 < s.v_registers x + s.v_registers y then 1 else 0
      some { s with v_registers := updf (updf s.v_registers x new_vx) 15 new_vf }
  | .subBorrow x y =>
      let new_vx := (s.v_registers x + 256 - s.v_registers y) % 256
      let new_vf := if s.v_registers x < s.v_registers y then 0 else 1
      some { s with v_registers := updf (updf s.v_registers x new_vx) 15 new_vf }
  | .shr x =>
      let lsb := s.v_registers x &&& 1
      some { s with v_registers :=
                updf (updf s.v_registers x (s.v_registers x >>> 1)) 15 lsb }
  | .subn x y =>
      let new_vx := (s.v_registers y + 256 - s.v_registers x) % 256
      let new_vf := if s.v_registers y < s.v_registers x then 0 else 1
      some { s with v_registers := updf (updf s.v_registers x new_vx) 15 new_vf }
  | .shl x =>
      let msb := (s.v_registers x >>> 7) &&& 1
      some { s with v_registers :=
                updf (updf s.v_registers x ((s.v_registers x <<< 1) % 256)) 15 msb }
  | .sneReg x y =>
      some (if s.v_registers x ≠ s.v_registers y then
        { s with program_counter := (s.program_counter + 2) % 65536 } else s)
  | .ldI nnn => some { s with i_register := nnn }
  | .jpV0 nnn =>
      some { s with program_counter := (nnn + s.v_registers 0) % 65536 }
  | .rnd x kk =>
      some { s with v_registers := updf s.v_registers x ((rnd % 256) &&& kk) }
  | .drw x y n =>
      let xc := s.v_registers x
      let yc := s.v_registers y
      (drawRowsAux s.ram s.i_register xc yc (List.range n) s.screen false).map
        fun sf =>
          { s with screen := sf.1,
                   v_registers := updf s.v_registers 15 (if sf.2 then 1 else 0) }
  | .skp x =>
      if s.v_registers x < NUM_KEYS then
        some (if s.key_states (s.v_registers x) then
          { s with program_counter := (s.program_counter + 2) % 65536 } else s)
      else none
  | .sknp x =>
      if s.v_registers x < NUM_KEYS then
        some (if !(s.key_states (s.v_registers x)) then
          { s with program_counter := (s.program_counter + 2) % 65536 } else s)
      else none
  | .ldVDt x =>
      some { s with v_registers := updf s.v_registers x s.delay_timer_register }
  | .waitKey x =>
      match scanKeysFrom s.key_states 0 NUM_KEYS with
      | some i => some { s with v_registers := updf s.v_registers x i }
      | none => some { s with program_counter :=
                  (s.program_counter + 65534) % 65536 }
  | .ldDtV x => some { s with delay_timer_register := s.v_registers x }
  | .ldStV x => some { s with sound_timer_register := s.v_registers x }
  | .addI x =>
      some { s with i_register := (s.i_register + s.v_registers x) % 65536 }
  | .ldFont x => some { s with i_register := s.v_registers x * 5 }
  | .bcd x =>
      let vx := s.v_registers x
      if s.i_register + 2 < RAM_SIZE then
        some { s with ram :=
                  (updf (updf (updf s.ram s.i_register (vx / 100))
                      (s.i_register + 1) (vx / 10 % 10))
                    (s.i_register + 2) (vx % 10)) }
      else none
  | .stRegs x =>
      if s.i_register + x < RAM_SIZE then
        some { s with ram := storeRegs s.ram s.v_registers s.i_register x }
      else none
  | .ldRegs x =>
      if s.i_register + x < RAM_SIZE then
        some { s with v_registers := loadRegs s.ram s.v_registers s.i_register x }
      else none

/-- Chip8::execute: decode the opcode and run the matching arm; an
unrecognized opcode is the panicking fall-through arm. -/
def execute (s : Chip8) (rnd opcode : Nat) : Option Chip8 :=
  match decode opcode with
  | some instr => execInstr s rnd instr
  | none => none

/-- Chip8::fetch: big-endian-combine the two bytes at the program
counter (faulting when the reads are out of ram bounds) and advance
the program counter by 2. -/
def Chip8.fetch (s : Chip8) : Option (Nat × Chip8) :=
  if s.program_counter + 1 < RAM_SIZE then
    some ((s.ram s.program_counter <<< 8) ||| s.ram (s.program_counter + 1),
      { s with program_counter := s.program_counter + 2 })
  else none

/-- Chip8::tick: fetch then execute. -/
def Chip8.tick (s : Chip8) (rnd : Nat) : Option Chip8 :=
  match s.fetch with
  | some os => execute os.2 rnd os.1
  | none => none

/-- Chip8::keypress: set one key state flag (the array access faults
for an out-of-range index). -/
def Chip8.keypress (s : Chip8) (idx : Nat) (pressed : Bool) : Option Chip8 :=
  if idx < NUM_KEYS then
    some { s with key_states := updB s.key_states idx pressed }
  else none

/-- Chip8::load: copy the data into ram[0x200 .. 0x200+len]; the
slice ram[start..end] faults before any byte is copied when `end`
exceeds the ram size. -/
def Chip8.load (s : Chip8) (data : List Nat) : Option Chip8 :=
  if START_ADDR + data.length ≤ RAM_SIZE then
    some { s with ram := writeList s.ram START_ADDR data }
  else none

/-- Modelled from the spec: the table in section 4.2 lists the known
instruction forms as nibble patterns; this predicate says whether a
word's nibble 4-tuple matches one of the listed forms. -/
def knownFormSpec (op : Nat) : Bool :=
  (digit1 op == 0x0 && digit2 op == 0x0 &&
    ((digit3 op == 0x0 && digit4 op == 0x0) ||
     (digit3 op == 0xE && (digit4 op == 0x0 || digit4 op == 0xE)))) ||
  digit1 op == 0x1 || digit1 op == 0x2 || digit1 op == 0x3 || digit1 op == 0x4 ||
  (digit1 op == 0x5 && digit4 op == 0x0) || digit1 op == 0x6 || digit1 op == 0x7 ||
  (digit1 op == 0x8 && (digit4 op ≤ 0x7 || digit4 op == 0xE)) ||
  (digit1 op == 0x9 && digit4 op == 0x0) ||
  digit1 op == 0xA || digit1 op == 0xB || digit1 op == 0xC || digit1 op == 0xD ||
  (digit1 op == 0xE && ((digit3 op == 0x9 && digit4 op == 0xE) ||
    (digit3 op == 0xA && digit4 op == 0x1))) ||
  (digit1 op == 0xF &&
    ((digit3 op == 0x0 && (digit4 op == 0x7 || digit4 op == 0xA)) ||
     (digit3 op == 0x1 && (digit4 op == 0x5 || digit4 op == 0x8 || digit4 op == 0xE)) ||
     (digit3 op == 0x2 && digit4 op == 0x9) || (digit3 op == 0x3 && digit4 op == 0x3) ||
     (digit3 op == 0x5 && digit4 op == 0x5) || (digit3 op == 0x6 && digit4 op == 0x5)))

/-- A concrete zeroed machine state used by witnesses. -/
def zeroState : Chip8 where
  program_counter := 0x200
  ram := fun _ => 0
  screen := fun _ => false
  v_registers := fun _ => 0
  i_register := 0
  delay_timer_register := 0
  sound_timer_register := 0
  stack_pointer := 0
  stack := fun _ => 0
  key_states := fun _ => false

/-- A machine state whose general-purpose registers all hold 200. -/
def regs200State : Chip8 :=
  { zeroState with v_registers := fun _ => 200 }

/-- A machine state with register 1 holding 250 and register 2 holding 10. -/
def regs250State : Chip8 :=
  { zeroState with v_registers := fun i => if i = 1 then 250 else if i = 2 then 10 else 0 }

/-- A machine whose program at 0x200 is the wait-for-key opcode 0xF50A. -/
def waitKeyState : Chip8 :=
  { zeroState with ram := fun a => if a = 0x200 then 0xF5 else if a = 0x201 then 0x0A else 0 }

/-- The same machine with keys 3 and 7 pressed. -/
def waitKeyPressedState : Chip8 :=
  { waitKeyState with key_states := fun i => i == 3 || i == 7 }

/-- One XOR-toggle of a pixel with collision accumulation, as performed
by the inner draw loop for one set sprite bit. -/
def togglesStep (sf : (Nat → Bool) × Bool) (p : Nat) : (Nat → Bool) × Bool :=
  (updB sf.1 p (!(sf.1 p)), sf.2 || sf.1 p)

/-- Sequentially toggle a list of pixel positions. -/
def toggles (scr : Nat → Bool) (fl : Bool) (ps : List Nat) : (Nat → Bool) × Bool :=
  ps.foldl togglesStep (scr, fl)

/-- The pixel positions of the set bits of one sprite row byte. -/
def rowPositions (pixels xc yc r : Nat) : List Nat :=
  ((List.range 8).filter fun b => pixels &&& (128 >>> b) != 0).map (sprPos xc yc r)

/-- The pixel positions of all set bits of an n-row sprite, row by row. -/
def spritePositions (ram : Nat → Nat) (i xc yc : Nat) : Nat → List Nat
  | 0 => []
  | n + 1 => spritePositions ram i xc yc n ++ rowPositions (ram (i + n)) xc yc n


/-- Extracts the row count of a decoded sprite-draw instruction. -/
def drwN : Option Instr → Nat
  | some (.drw _ _ n) => n
  | _ => 0


/-- A machine whose ram holds the single sprite byte 0x80 at address 0. -/
def drawState : Chip8 :=
  { zeroState with ram := fun a => if a = 0 then 128 else 0 }


/-- State after clearing the display of drawState. -/
def c9s1 : Chip8 :=
  match execute drawState 0 0x00E0 with
  | some t => t
  | none => drawState

/-- State after the first draw. -/
def c9s2 : Chip8 :=
  match execute c9s1 0 0xD001 with
  | some t => t
  | none => c9s1

/-- State after the second, identical draw. -/
def c9s3 : Chip8 :=
  match execute c9s2 0 0xD001 with
  | some t => t
  | none => c9s2

/-- A fresh machine with the address register moved above the font region. -/
def fontSafeState : Chip8 :=
  { Chip8.new with i_register := 100 }

/-- The state after executing the BCD instruction on fontSafeState. -/
def fontSafeAfter : Chip8 :=
  match execute fontSafeState 0 0xF033 with
  | some t => t
  | none => fontSafeState

theorem and_div_two_pow (a b k : Nat) :
    (a &&& b) / 2 ^ k = (a / 2 ^ k) &&& (b / 2 ^ k) := by
  induction k with
  | zero => simp
  | succ k ih =>
    rw [pow_succ, ← Nat.div_div_eq_div_mul, ih, Nat.and_div_two,
      Nat.div_div_eq_div_mul, Nat.div_div_eq_div_mul]

theorem digit1_eq (op : Nat) : digit1 op = op / 4096 % 16 := by
  unfold digit1
  rw [Nat.shiftRight_eq_div_pow, show (4096 : Nat) = 2 ^ 12 from rfl, and_div_two_pow]
  rw [show ((0xF000 : Nat) / 2 ^ 12) = 2 ^ 4 - 1 by decide]
  rw [Nat.and_pow_two_sub_one_eq_mod]

theorem digit2_eq (op : Nat) : digit2 op = op / 256 % 16 := by
  unfold digit2
  rw [Nat.shiftRight_eq_div_pow, show (256 : Nat) = 2 ^ 8 from rfl, and_div_two_pow]
  rw [show ((0x0F00 : Nat) / 2 ^ 8) = 2 ^ 4 - 1 by decide]
  rw [Nat.and_pow_two_sub_one_eq_mod]

theorem digit3_eq (op : Nat) : digit3 op = op / 16 % 16 := by
  unfold digit3
  rw [Nat.shiftRight_eq_div_pow, show (16 : Nat) = 2 ^ 4 from rfl, and_div_two_pow]
  rw [show ((0x00F0 : Nat) / 2 ^ 4) = 2 ^ 4 - 1 by decide]
  rw [Nat.and_pow_two_sub_one_eq_mod]

theorem digit4_eq (op : Nat) : digit4 op = op % 16 := by
  unfold digit4
  rw [show ((0x000F : Nat)) = 2 ^ 4 - 1 by decide, Nat.and_pow_two_sub_one_eq_mod]

theorem nnn_eq (op : Nat) : op &&& 0x0FFF = op % 4096 := by
  rw [show ((0x0FFF : Nat)) = 2 ^ 12 - 1 by decide, Nat.and_pow_two_sub_one_eq_mod]

theorem kk_eq (op : Nat) : op &&& 0x00FF = op % 256 := by
  rw [show ((0x00FF : Nat)) = 2 ^ 8 - 1 by decide, Nat.and_pow_two_sub_one_eq_mod]

theorem ne_of_gt7 : ∀ {e k : Nat}, 7 < e → k < 8 → ¬ e = k := by omega

theorem decode_eq_none_of_unknown (op : Nat) (h : knownFormSpec op = false) :
    decode op = none := by
  unfold knownFormSpec at h
  simp only [Bool.or_eq_false_iff, Bool.and_eq_false_iff, beq_eq_false_iff_ne,
    ne_eq, decide_eq_false_iff_not, not_le] at h
  unfold decode
  generalize digit1 op = a at h ⊢
  generalize digit2 op = b at h ⊢
  generalize digit3 op = c at h ⊢
  generalize digit4 op = e at h ⊢
  obtain ⟨⟨⟨⟨⟨⟨⟨⟨⟨⟨⟨⟨⟨⟨⟨k0, k1⟩, k2⟩, k3⟩, k4⟩, k5⟩, k6⟩, k7⟩,
    k8⟩, k9⟩, k10⟩, k11⟩, k12⟩, k13⟩, k14⟩, k15⟩ := h
  have hn1 : ¬(a = 0x0 ∧ b = 0x0 ∧ c = 0x0 ∧ e = 0x0) :=
    fun hc => k0.elim (fun w => w.elim (fun u => u hc.1) (fun u => u hc.2.1)) (fun w => w.1.elim (fun u => u hc.2.2.1) (fun u => u hc.2.2.2))
  have hn2 : ¬(a = 0x0 ∧ b = 0x0 ∧ c = 0xE ∧ e = 0x0) :=
    fun hc => k0.elim (fun w => w.elim (fun u => u hc.1) (fun u => u hc.2.1)) (fun w => w.2.elim (fun u => u hc.2.2.1) (fun u => u.1 hc.2.2.2))
  have hn3 : ¬(a = 0x0 ∧ b = 0x0 ∧ c = 0xE ∧ e = 0xE) :=
    fun hc => k0.elim (fun w => w.elim (fun u => u hc.1) (fun u => u hc.2.1)) (fun w => w.2.elim (fun u => u hc.2.2.1) (fun u => u.2 hc.2.2.2))
  have hn4 : ¬(a = 0x1) :=
    k1
  have hn5 : ¬(a = 0x2) :=
    k2
  have hn6 : ¬(a = 0x3) :=
    k3
  have hn7 : ¬(a = 0x4) :=
    k4
  have hn8 : ¬(a = 0x5 ∧ e = 0x0) :=
    fun hc => k5.elim (fun u => u hc.1) (fun u => u hc.2)
  have hn9 : ¬(a = 0x6) :=
    k6
  have hn10 : ¬(a = 0x7) :=
    k7
  have hn11 : ¬(a = 0x8 ∧ e = 0x0) :=
    fun hc => k8.elim (fun u => u hc.1) (fun u => ne_of_gt7 u.1 (by decide) hc.2)
  have hn12 : ¬(a = 0x8 ∧ e = 0x1) :=
    fun hc => k8.elim (fun u => u hc.1) (fun u => ne_of_gt7 u.1 (by decide) hc.2)
  have hn13 : ¬(a = 0x8 ∧ e = 0x2) :=
    fun hc => k8.elim (fun u => u hc.1) (fun u => ne_of_gt7 u.1 (by decide) hc.2)
  have hn14 : ¬(a = 0x8 ∧ e = 0x3) :=
    fun hc => k8.elim (fun u => u hc.1) (fun u => ne_of_gt7 u.1 (by decide) hc.2)
  have hn15 : ¬(a = 0x8 ∧ e = 0x4) :=
    fun hc => k8.elim (fun u => u hc.1) (fun u => ne_of_gt7 u.1 (by decide) hc.2)
  have hn16 : ¬(a = 0x8 ∧ e = 0x5) :=
    fun hc => k8.elim (fun u => u hc.1) (fun u => ne_of_gt7 u.1 (by decide) hc.2)
  have hn17 : ¬(a = 0x8 ∧ e = 0x6) :=
    fun hc => k8.elim (fun u => u hc.1) (fun u => ne_of_gt7 u.1 (by decide) hc.2)
  have hn18 : ¬(a = 0x8 ∧ e = 0x7) :=
    fun hc => k8.elim (fun u => u hc.1) (fun u => ne_of_gt7 u.1 (by decide) hc.2)
  have hn19 : ¬(a = 0x8 ∧ e = 0xE) :=
    fun hc => k8.elim (fun u => u hc.1) (fun u => u.2 hc.2)
  have hn20 : ¬(a = 0x9 ∧ e = 0x0) :=
    fun hc => k9.elim (fun u => u hc.1) (fun u => u hc.2)
  have hn21 : ¬(a = 0xA) :=
    k10
  have hn22 : ¬(a = 0xB) :=
    k11
  have hn23 : ¬(a = 0xC) :=
    k12
  have hn24 : ¬(a = 0xD) :=
    k13
  have hn25 : ¬(a = 0xE ∧ c = 0x9 ∧ e = 0xE) :=
    fun hc => k14.elim (fun u => u hc.1) (fun u => u.1.elim (fun v => v hc.2.1) (fun v => v hc.2.2))
  have hn26 : ¬(a = 0xE ∧ c = 0xA ∧ e = 0x1) :=
    fun hc => k14.elim (fun u => u hc.1) (fun u => u.2.elim (fun v => v hc.2.1) (fun v => v hc.2.2))
  have hn27 : ¬(a = 0xF ∧ c = 0x0 ∧ e = 0x7) :=
    fun hc => k15.elim (fun u => u hc.1) (fun u => u.1.1.1.1.1.elim (fun v => v hc.2.1) (fun v => v.1 hc.2.2))
  have hn28 : ¬(a = 0xF ∧ c = 0x0 ∧ e = 0xA) :=
    fun hc => k15.elim (fun u => u hc.1) (fun u => u.1.1.1.1.1.elim (fun v => v hc.2.1) (fun v => v.2 hc.2.2))
  have hn29 : ¬(a = 0xF ∧ c = 0x1 ∧ e = 0x5) :=
    fun hc => k15.elim (fun u => u hc.1) (fun u => u.1.1.1.1.2.elim (fun v => v hc.2.1) (fun v => v.1.1 hc.2.2))
  have hn30 : ¬(a = 0xF ∧ c = 0x1 ∧ e = 0x8) :=
    fun hc => k15.elim (fun u => u hc.1) (fun u => u.1.1.1.1.2.elim (fun v => v hc.2.1) (fun v => v.1.2 hc.2.2))
  have hn31 : ¬(a = 0xF ∧ c = 0x1 ∧ e = 0xE) :=
    fun hc => k15.elim (fun u => u hc.1) (fun u => u.1.1.1.1.2.elim (fun v => v hc.2.1) (fun v => v.2 hc.2.2))
  have hn32 : ¬(a = 0xF ∧ c = 0x2 ∧ e = 0x9) :=
    fun hc => k15.elim (fun u => u hc.1) (fun u => u.1.1.1.2.elim (fun v => v hc.2.1) (fun v => v hc.2.2))
  have hn33 : ¬(a = 0xF ∧ c = 0x3 ∧ e = 0x3) :=
    fun hc => k15.elim (fun u => u hc.1) (fun u => u.1.1.2.elim (fun v => v hc.2.1) (fun v => v hc.2.2))
  have hn34 : ¬(a = 0xF ∧ c = 0x5 ∧ e = 0x5) :=
    fun hc => k15.elim (fun u => u hc.1) (fun u => u.1.2.elim (fun v => v hc.2.1) (fun v => v hc.2.2))
  have hn35 : ¬(a = 0xF ∧ c = 0x6 ∧ e = 0x5) :=
    fun hc => k15.elim (fun u => u hc.1) (fun u => u.2.elim (fun v => v hc.2.1) (fun v => v hc.2.2))
  rw [if_neg hn1, if_neg hn2, if_neg hn3, if_neg hn4, if_neg hn5, if_neg hn6, if_neg hn7, if_neg hn8, if_neg hn9, if_neg hn10, if_neg hn11, if_neg hn12, if_neg hn13, if_neg hn14, if_neg hn15, if_neg hn16, if_neg hn17, if_neg hn18, if_neg hn19, if_neg hn20, if_neg hn21, if_neg hn22, if_neg hn23, if_neg hn24, if_neg hn25, if_neg hn26, if_neg hn27, if_neg hn28, if_neg hn29, if_neg hn30, if_neg hn31, if_neg hn32, if_neg hn33, if_neg hn34, if_neg hn35]

/-- C1 (amended): executing the add-with-carry instruction (8,x,y,4) on byte
values a, b always leaves the flag register V15 equal to 1 iff a+b > 255 (the
flag is written last), and for x different from 15 leaves register x holding
(a+b) mod 256. -/
theorem C1_addCarry (s : Chip8) (rnd op x y a b : Nat)
    (hdec : decode op = some (.addCarry x y))
    (ha : s.v_registers x = a) (hb : s.v_registers y = b)
    (ha2 : a < 256) (hb2 : b < 256) :
    ((execute s rnd op).map fun t => t.v_registers 15) =
      some (if 255 < a + b then 1 else 0) ∧
    (x ≠ 15 → ((execute s rnd op).map fun t => t.v_registers x) =
      some ((a + b) % 256)) := by
  unfold execute
  rw [hdec]
  refine ⟨?_, fun hx => ?_⟩
  · simp [execInstr, updf, ha, hb]
  · simp [execInstr, updf, ha, hb, hx]

set_option maxRecDepth 40000 in
/-- C1 counterexample: with every register holding 200, executing 0x8F04
(x = 15, y = 0, a = b = 200) leaves register x = V15 holding the carry flag 1,
not (200+200) mod 256 = 144. -/
theorem C1_counterexample :
    ((execute regs200State 0 0x8F04).map fun t => t.v_registers 15) = some 1 ∧
    ((execute regs200State 0 0x8F04).map fun t => t.v_registers 15) ≠
      some ((200 + 200) % 256) := by
  constructor
  · decide
  · decide

set_option maxRecDepth 40000 in
/-- C1 witness: concrete run of the amended theorem at x = 1, y = 2,
a = 250, b = 10 (sum 260 overflows: flag 1, register 1 gets 4). -/
theorem C1_witness :
    ((execute regs250State 0 0x8124).map fun t => t.v_registers 15) = some 1 ∧
    ((execute regs250State 0 0x8124).map fun t => t.v_registers 1) = some 4 := by
  have h := C1_addCarry regs250State 0 0x8124 1 2 250 10 (by decide) rfl rfl
    (by decide) (by decide)
  exact ⟨h.1, h.2 (by decide)⟩

/-- C2 (amended): executing the subtract instruction (8,x,y,5) on byte values
a, b always leaves the flag register V15 equal to 1 iff a ≥ b (no borrow; the
flag is written last), and for x different from 15 leaves register x holding
(a-b) mod 256, that is (a + 256 - b) % 256. -/
theorem C2_subBorrow (s : Chip8) (rnd op x y a b : Nat)
    (hdec : decode op = some (.subBorrow x y))
    (ha : s.v_registers x = a) (hb : s.v_registers y = b)
    (ha2 : a < 256) (hb2 : b < 256) :
    ((execute s rnd op).map fun t => t.v_registers 15) =
      some (if a < b then 0 else 1) ∧
    (x ≠ 15 → ((execute s rnd op).map fun t => t.v_registers x) =
      some ((a + 256 - b) % 256)) := by
  unfold execute
  rw [hdec]
  refine ⟨?_, fun hx => ?_⟩
  · simp [execInstr, updf, ha, hb]
  · simp [execInstr, updf, ha, hb, hx]

set_option maxRecDepth 40000 in
/-- C2 counterexample: with every register holding 200, executing 0x8F05
(x = 15, y = 0, a = b = 200) leaves register x = V15 holding the no-borrow
flag 1, not (200-200) mod 256 = 0. -/
theorem C2_counterexample :
    ((execute regs200State 0 0x8F05).map fun t => t.v_registers 15) = some 1 ∧
    ((execute regs200State 0 0x8F05).map fun t => t.v_registers 15) ≠
      some ((200 + 256 - 200) % 256) := by
  constructor
  · decide
  · decide

set_option maxRecDepth 40000 in
/-- C2 witness: concrete run of the amended theorem at x = 1, y = 2,
a = 250, b = 10 (no borrow: flag 1, register 1 gets 240). -/
theorem C2_witness :
    ((execute regs250State 0 0x8125).map fun t => t.v_registers 15) = some 1 ∧
    ((execute regs250State 0 0x8125).map fun t => t.v_registers 1) = some 240 := by
  have h := C2_subBorrow regs250State 0 0x8125 1 2 250 10 (by decide) rfl rfl
    (by decide) (by decide)
  exact ⟨h.1, h.2 (by decide)⟩

/-- C5: loading a byte sequence longer than 4096 - 0x200 faults before any
byte is copied: the load returns no state at all, so memory (including the
font region) is untouched on the error path. -/
theorem C5_load_overflow (s : Chip8) (data : List Nat)
    (h : RAM_SIZE - START_ADDR < data.length) :
    s.load data = none := by
  unfold Chip8.load
  rw [if_neg]
  unfold RAM_SIZE START_ADDR at *
  omega

/-- C5 witness: loading 3585 bytes into a fresh machine faults. -/
theorem C5_witness :
    RAM_SIZE - START_ADDR < (List.replicate 3585 (0 : Nat)).length ∧
    Chip8.new.load (List.replicate 3585 0) = none := by
  have hlen : RAM_SIZE - START_ADDR < (List.replicate 3585 (0 : Nat)).length := by
    rw [List.length_replicate]
    unfold RAM_SIZE START_ADDR
    omega
  exact ⟨hlen, C5_load_overflow Chip8.new _ hlen⟩

/-- C6: executing any 16-bit word whose nibble 4-tuple matches none of the
listed instruction forms is a fault: execute returns no successor state. -/
theorem C6_unknown_opcode_faults (s : Chip8) (rnd op : Nat) (hop : op < 65536)
    (h : knownFormSpec op = false) :
    execute s rnd op = none := by
  unfold execute
  rw [decode_eq_none_of_unknown op h]

set_option maxRecDepth 40000 in
/-- C6 witness: 0x5001 matches no listed form and faults on a fresh machine. -/
theorem C6_witness :
    (0x5001 : Nat) < 65536 ∧ knownFormSpec 0x5001 = false ∧
    execute Chip8.new 0 0x5001 = none :=
  ⟨by decide, by decide,
   C6_unknown_opcode_faults Chip8.new 0 0x5001 (by decide) (by decide)⟩

/-- C7: one timer tick decrements each countdown register by exactly 1 when
it is above 0 and leaves it at 0 when it is 0; with both registers 0 both
stay 0. -/
theorem C7_tick_timers (s : Chip8) :
    ((0 < s.delay_timer_register →
        (s.tick_timers).delay_timer_register = s.delay_timer_register - 1) ∧
     (s.delay_timer_register = 0 → (s.tick_timers).delay_timer_register = 0)) ∧
    ((0 < s.sound_timer_register →
        (s.tick_timers).sound_timer_register = s.sound_timer_register - 1) ∧
     (s.sound_timer_register = 0 → (s.tick_timers).sound_timer_register = 0)) := by
  unfold Chip8.tick_timers
  by_cases hd : s.delay_timer_register > 0 <;>
    by_cases hs : s.sound_timer_register > 0 <;>
      simp [hd, hs] <;> omega

/-- C7 witness: ticking a machine with delay 5 and sound 0 gives delay 4 and
sound 0. -/
theorem C7_witness :
    (({ zeroState with delay_timer_register := 5 } : Chip8).tick_timers).delay_timer_register = 4 ∧
    (({ zeroState with delay_timer_register := 5 } : Chip8).tick_timers).sound_timer_register = 0 :=
  ⟨(C7_tick_timers { zeroState with delay_timer_register := 5 }).1.1 (by decide),
   (C7_tick_timers { zeroState with delay_timer_register := 5 }).2.2 rfl⟩

/-- C10: a timer tick changes at most the two countdown registers: the
program counter, ram, screen, general-purpose registers, address register,
stack, stack pointer and key states are all unchanged. -/
theorem C10_tick_timers_frame (s : Chip8) :
    (s.tick_timers).program_counter = s.program_counter ∧
    (s.tick_timers).ram = s.ram ∧
    (s.tick_timers).screen = s.screen ∧
    (s.tick_timers).v_registers = s.v_registers ∧
    (s.tick_timers).i_register = s.i_register ∧
    (s.tick_timers).stack_pointer = s.stack_pointer ∧
    (s.tick_timers).stack = s.stack ∧
    (s.tick_timers).key_states = s.key_states := by
  unfold Chip8.tick_timers
  by_cases hd : s.delay_timer_register > 0 <;>
    by_cases hs : s.sound_timer_register > 0 <;>
      simp [hd, hs]

theorem scanKeysFrom_none (keys : Nat → Bool) :
    ∀ fuel i, (∀ j, i ≤ j → j < i + fuel → keys j = false) →
      scanKeysFrom keys i fuel = none := by
  intro fuel
  induction fuel with
  | zero => intro i _; rfl
  | succ f ih =>
    intro i h
    unfold scanKeysFrom
    rw [h i (Nat.le_refl i) (by omega)]
    simp only [Bool.false_eq_true, if_false]
    exact ih (i + 1) fun j h1 h2 => h j (by omega) (by omega)

theorem scanKeysFrom_some (keys : Nat → Bool) :
    ∀ fuel i k, i ≤ k → k < i + fuel → keys k = true →
      (∀ j, i ≤ j → j < k → keys j = false) →
      scanKeysFrom keys i fuel = some k := by
  intro fuel
  induction fuel with
  | zero => intro i k h1 h2 _ _; omega
  | succ f ih =>
    intro i k h1 h2 hk hmin
    unfold scanKeysFrom
    by_cases hi : keys i = true
    · have hik : k = i := by
        by_contra hne
        have hlt : i < k := by omega
        have hfi := hmin i (Nat.le_refl i) hlt
        rw [hi] at hfi
        exact Bool.noConfusion hfi
      subst hik
      simp [hk]
    · have hfi : keys i = false := by
        cases hb : keys i with
        | false => rfl
        | true => exact absurd hb hi
      rw [hfi]
      simp only [Bool.false_eq_true, if_false]
      have hik : i ≠ k := fun he => by rw [he, hk] at hfi; exact Bool.noConfusion hfi
      exact ih (i + 1) k (by omega) (by omega) hk fun j h1 h2 => hmin j (by omega) h2

/-- C4: a tick whose fetched instruction is wait-for-key (F,x,0,A): with no
key pressed the program counter and register x are unchanged after the tick
(net no-op); with at least one key pressed the lowest-indexed pressed key's
index is stored in register x and the program counter advances by 2. -/
theorem C4_waitKey (s : Chip8) (rnd x : Nat)
    (hpc : s.program_counter + 1 < RAM_SIZE)
    (hdec : decode ((s.ram s.program_counter <<< 8) ||| s.ram (s.program_counter + 1)) =
      some (.waitKey x)) :
    ((∀ i, i < NUM_KEYS → s.key_states i = false) →
      ((s.tick rnd).map fun t => (t.program_counter, t.v_registers x)) =
        some (s.program_counter, s.v_registers x)) ∧
    (∀ k, k < NUM_KEYS → s.key_states k = true →
      (∀ j, j < k → s.key_states j = false) →
      ((s.tick rnd).map fun t => (t.program_counter, t.v_registers x)) =
        some (s.program_counter + 2, k)) := by
  have hpc16 : s.program_counter < 65536 := by
    have h2 := hpc
    unfold RAM_SIZE at h2
    omega
  unfold Chip8.tick Chip8.fetch
  rw [if_pos hpc]
  dsimp only []
  unfold execute
  rw [hdec]
  constructor
  · intro hnone
    have hscan : scanKeysFrom s.key_states 0 NUM_KEYS = none :=
      scanKeysFrom_none s.key_states NUM_KEYS 0 fun j _ h2 => hnone j (by omega)
    unfold execInstr
    dsimp only []
    rw [hscan]
    simp only [Option.map_some', Option.some.injEq, Prod.mk.injEq]
    exact ⟨by omega, trivial⟩
  · intro k hk16 hk hmin
    have hscan : scanKeysFrom s.key_states 0 NUM_KEYS = some k :=
      scanKeysFrom_some s.key_states NUM_KEYS 0 k (Nat.zero_le k)
        (by unfold NUM_KEYS at *; omega) hk fun j _ h2 => hmin j h2
    unfold execInstr
    dsimp only []
    rw [hscan]
    simp only [Option.map_some', Option.some.injEq, Prod.mk.injEq]
    simp [updf]

set_option maxRecDepth 40000 in
/-- C4 witness: with no key pressed the tick leaves pc = 0x200 and register 5
unchanged; with keys 3 and 7 pressed it stores 3 and advances pc to 0x202. -/
theorem C4_witness :
    ((waitKeyState.tick 0).map fun t => (t.program_counter, t.v_registers 5)) =
      some (0x200, 0) ∧
    ((waitKeyPressedState.tick 0).map fun t => (t.program_counter, t.v_registers 5)) =
      some (0x200 + 2, 3) := by
  constructor
  · exact (C4_waitKey waitKeyState 0 5 (by decide) (by decide)).1
      (fun i _ => rfl)
  · exact (C4_waitKey waitKeyPressedState 0 5 (by decide) (by decide)).2 3 (by decide)
      (by decide) (fun j hj => by interval_cases j <;> decide)

theorem bitFold_eq_toggles (pixels xc yc r : Nat) :
    ∀ (bs : List Nat) (sf : (Nat → Bool) × Bool),
      bs.foldl (drawBitStep pixels xc yc r) sf =
        toggles sf.1 sf.2
          ((bs.filter fun b => pixels &&& (128 >>> b) != 0).map (sprPos xc yc r)) := by
  intro bs
  induction bs with
  | nil => intro sf; rfl
  | cons b rest ih =>
    intro sf
    by_cases hb : pixels &&& (128 >>> b) = 0
    · have hfilter : (pixels &&& (128 >>> b) != 0) = false := by simp [hb]
      have hstep : drawBitStep pixels xc yc r sf b = sf := by
        unfold drawBitStep
        rw [if_neg]
        simp [hb]
      simp only [List.foldl_cons, List.filter_cons, hfilter, hstep]
      exact ih sf
    · have hfilter : (pixels &&& (128 >>> b) != 0) = true := by simp [hb]
      have hstep : drawBitStep pixels xc yc r sf b =
          togglesStep sf (sprPos xc yc r b) := by
        unfold drawBitStep togglesStep
        rw [if_pos hb]
      simp only [List.foldl_cons, List.filter_cons, hfilter, if_true, hstep]
      rw [ih (togglesStep sf (sprPos xc yc r b))]
      unfold toggles
      simp [List.foldl_cons]

theorem toggles_append (scr : Nat → Bool) (fl : Bool) (l1 l2 : List Nat) :
    toggles scr fl (l1 ++ l2) =
      toggles (toggles scr fl l1).1 (toggles scr fl l1).2 l2 := by
  unfold toggles
  rw [List.foldl_append]

theorem drawRowsAux_append (ram : Nat → Nat) (i xc yc : Nat) :
    ∀ (l1 l2 : List Nat) (scr : Nat → Bool) (fl : Bool),
      drawRowsAux ram i xc yc (l1 ++ l2) scr fl =
        (drawRowsAux ram i xc yc l1 scr fl).bind
          (fun sf => drawRowsAux ram i xc yc l2 sf.1 sf.2) := by
  intro l1
  induction l1 with
  | nil => intro l2 scr fl; rfl
  | cons r rest ih =>
    intro l2 scr fl
    have hL : drawRowsAux ram i xc yc ((r :: rest) ++ l2) scr fl =
        (if i + r < RAM_SIZE then
          (fun sf => drawRowsAux ram i xc yc (rest ++ l2) sf.1 sf.2)
            ((List.range 8).foldl (drawBitStep (ram (i + r)) xc yc r) (scr, fl))
        else none) := rfl
    have hR : drawRowsAux ram i xc yc (r :: rest) scr fl =
        (if i + r < RAM_SIZE then
          (fun sf => drawRowsAux ram i xc yc rest sf.1 sf.2)
            ((List.range 8).foldl (drawBitStep (ram (i + r)) xc yc r) (scr, fl))
        else none) := rfl
    rw [hL, hR]
    by_cases hr : i + r < RAM_SIZE
    · rw [if_pos hr, if_pos hr]
      exact ih l2 _ _
    · rw [if_neg hr, if_neg hr]
      rfl

theorem drawRowsAux_spec (ram : Nat → Nat) (i xc yc : Nat) :
    ∀ (n : Nat) (scr : Nat → Bool) (fl : Bool),
      (∀ r, r < n → i + r < RAM_SIZE) →
      drawRowsAux ram i xc yc (List.range n) scr fl =
        some (toggles scr fl (spritePositions ram i xc yc n)) := by
  intro n
  induction n with
  | zero => intro scr fl _; rfl
  | succ n ih =>
    intro scr fl h
    rw [List.range_succ, drawRowsAux_append]
    rw [ih scr fl fun r hr => h r (by omega)]
    simp only [Option.some_bind]
    rw [show spritePositions ram i xc yc (n + 1) =
        spritePositions ram i xc yc n ++ rowPositions (ram (i + n)) xc yc n from rfl,
      toggles_append]
    unfold drawRowsAux
    rw [if_pos (h n (by omega))]
    dsimp only []
    rw [bitFold_eq_toggles]
    rfl

theorem drawRowsAux_some_bounds (ram : Nat → Nat) (i xc yc : Nat) :
    ∀ (rows : List Nat) (scr : Nat → Bool) (fl : Bool)
      (sf : (Nat → Bool) × Bool),
      drawRowsAux ram i xc yc rows scr fl = some sf →
      ∀ r ∈ rows, i + r < RAM_SIZE := by
  intro rows
  induction rows with
  | nil => intro scr fl sf _ r hr; exact absurd hr (List.not_mem_nil r)
  | cons r0 rest ih =>
    intro scr fl sf h r hr
    unfold drawRowsAux at h
    by_cases hr0 : i + r0 < RAM_SIZE
    · rw [if_pos hr0] at h
      rcases List.mem_cons.mp hr with he | hm
      · rw [he]; exact hr0
      · exact ih _ _ sf h r hm
    · rw [if_neg hr0] at h
      exact Option.noConfusion h

theorem toggles_screen (ps : List Nat) :
    ∀ (scr : Nat → Bool) (fl : Bool) (q : Nat), ps.Nodup →
      (toggles scr fl ps).1 q = if q ∈ ps then !(scr q) else scr q := by
  induction ps with
  | nil => intro scr fl q _; simp [toggles]
  | cons p rest ih =>
    intro scr fl q hnd
    have hp : p ∉ rest := (List.nodup_cons.mp hnd).1
    have hrest : rest.Nodup := (List.nodup_cons.mp hnd).2
    have hstep : toggles scr fl (p :: rest) =
        toggles (updB scr p (!(scr p))) (fl || scr p) rest := rfl
    rw [hstep, ih _ _ q hrest]
    by_cases hq : q = p
    · subst hq
      have hqm : q ∉ rest := hp
      simp [hqm, updB]
    · simp [List.mem_cons, hq, updB]

theorem toggles_flag (ps : List Nat) :
    ∀ (scr : Nat → Bool) (fl : Bool), ps.Nodup →
      ((toggles scr fl ps).2 = true ↔
        (fl = true ∨ ∃ p ∈ ps, scr p = true)) := by
  induction ps with
  | nil => intro scr fl _; simp [toggles]
  | cons p rest ih =>
    intro scr fl hnd
    have hp : p ∉ rest := (List.nodup_cons.mp hnd).1
    have hrest : rest.Nodup := (List.nodup_cons.mp hnd).2
    have hstep : toggles scr fl (p :: rest) =
        toggles (updB scr p (!(scr p))) (fl || scr p) rest := rfl
    rw [hstep, ih _ _ hrest]
    constructor
    · rintro (hfl | ⟨p2, hp2, hscr⟩)
      · rcases Bool.or_eq_true_iff.mp hfl with h | h
        · exact Or.inl h
        · exact Or.inr ⟨p, List.mem_cons_self p rest, h⟩
      · have hne : p2 ≠ p := fun he => hp (he ▸ hp2)
        rw [updB] at hscr
        simp only [if_neg hne] at hscr
        exact Or.inr ⟨p2, List.mem_cons_of_mem p hp2, hscr⟩
    · rintro (hfl | ⟨p2, hp2, hscr⟩)
      · exact Or.inl (by simp [hfl])
      · rcases List.mem_cons.mp hp2 with he | hm
        · subst he
          exact Or.inl (by simp [hscr])
        · have hne : p2 ≠ p := fun he => hp (he ▸ hm)
          refine Or.inr ⟨p2, hm, ?_⟩
          rw [updB]
          simp [if_neg hne, hscr]

theorem sprPos_div (xc yc r b : Nat) :
    sprPos xc yc r b / 64 = (yc + r) % 32 := by
  unfold sprPos SCREEN_WIDTH SCREEN_HEIGHT
  omega

theorem sprPos_inj_bit (xc yc r : Nat) {b1 b2 : Nat} (h1 : b1 < 8) (h2 : b2 < 8)
    (he : sprPos xc yc r b1 = sprPos xc yc r b2) : b1 = b2 := by
  unfold sprPos SCREEN_WIDTH SCREEN_HEIGHT at he
  omega

theorem rowPositions_mem (pixels xc yc r q : Nat) :
    q ∈ rowPositions pixels xc yc r ↔
      ∃ b, b < 8 ∧ pixels &&& (128 >>> b) ≠ 0 ∧ q = sprPos xc yc r b := by
  unfold rowPositions
  simp only [List.mem_map, List.mem_filter, List.mem_range, ne_eq, bne_iff_ne]
  constructor
  · rintro ⟨b, ⟨hb, hset⟩, hq⟩
    exact ⟨b, hb, hset, hq.symm⟩
  · rintro ⟨b, hb, hset, hq⟩
    exact ⟨b, ⟨hb, hset⟩, hq.symm⟩

theorem rowPositions_nodup (pixels xc yc r : Nat) :
    (rowPositions pixels xc yc r).Nodup := by
  unfold rowPositions
  apply List.Nodup.map_on
  · intro b1 hb1 b2 hb2 he
    have h1 : b1 < 8 := List.mem_range.mp (List.mem_of_mem_filter hb1)
    have h2 : b2 < 8 := List.mem_range.mp (List.mem_of_mem_filter hb2)
    exact sprPos_inj_bit xc yc r h1 h2 he
  · exact List.Nodup.filter _ (List.nodup_range 8)

theorem spritePositions_mem (ram : Nat → Nat) (i xc yc : Nat) :
    ∀ (n : Nat) (q : Nat),
      q ∈ spritePositions ram i xc yc n ↔
        ∃ r, r < n ∧ ∃ b, b < 8 ∧ ram (i + r) &&& (128 >>> b) ≠ 0 ∧
          q = sprPos xc yc r b := by
  intro n
  induction n with
  | zero => intro q; simp [spritePositions]
  | succ n ih =>
    intro q
    unfold spritePositions
    rw [List.mem_append, ih, rowPositions_mem]
    constructor
    · rintro (⟨r, hr, b, hb, hset, hq⟩ | ⟨b, hb, hset, hq⟩)
      · exact ⟨r, by omega, b, hb, hset, hq⟩
      · exact ⟨n, by omega, b, hb, hset, hq⟩
    · rintro ⟨r, hr, b, hb, hset, hq⟩
      by_cases hrn : r = n
      · subst hrn
        exact Or.inr ⟨b, hb, hset, hq⟩
      · exact Or.inl ⟨r, by omega, b, hb, hset, hq⟩

theorem spritePositions_nodup (ram : Nat → Nat) (i xc yc : Nat) :
    ∀ (n : Nat), n ≤ 32 → (spritePositions ram i xc yc n).Nodup := by
  intro n
  induction n with
  | zero => intro _; exact List.nodup_nil
  | succ n ih =>
    intro hn
    unfold spritePositions
    rw [List.nodup_append]
    refine ⟨ih (by omega), rowPositions_nodup _ _ _ _, ?_⟩
    intro q hq1 hq2
    rcases (spritePositions_mem ram i xc yc n q).mp hq1 with ⟨r, hr, b, hb, _, hq⟩
    rcases (rowPositions_mem (ram (i + n)) xc yc n q).mp hq2 with ⟨b2, hb2, _, hq2e⟩
    have hd1 : q / 64 = (yc + r) % 32 := by rw [hq]; exact sprPos_div xc yc r b
    have hd2 : q / 64 = (yc + n) % 32 := by rw [hq2e]; exact sprPos_div xc yc n b2
    omega

theorem digit4_lt (op : Nat) : digit4 op < 16 := by
  rw [digit4_eq]
  omega

theorem drwN_lt (op : Nat) : drwN (decode op) < 16 := by
  have h4 := digit4_lt op
  unfold decode
  generalize digit1 op = a
  generalize digit2 op = b
  generalize digit3 op = c
  generalize digit4 op = e at h4 ⊢
  by_cases hh0 : a = 0x0 ∧ b = 0x0 ∧ c = 0x0 ∧ e = 0x0
  · rw [if_pos hh0]; exact (by decide : (0:Nat) < 16)
  rw [if_neg hh0]
  by_cases hh1 : a = 0x0 ∧ b = 0x0 ∧ c = 0xE ∧ e = 0x0
  · rw [if_pos hh1]; exact (by decide : (0:Nat) < 16)
  rw [if_neg hh1]
  by_cases hh2 : a = 0x0 ∧ b = 0x0 ∧ c = 0xE ∧ e = 0xE
  · rw [if_pos hh2]; exact (by decide : (0:Nat) < 16)
  rw [if_neg hh2]
  by_cases hh3 : a = 0x1
  · rw [if_pos hh3]; exact (by decide : (0:Nat) < 16)
  rw [if_neg hh3]
  by_cases hh4 : a = 0x2
  · rw [if_pos hh4]; exact (by decide : (0:Nat) < 16)
  rw [if_neg hh4]
  by_cases hh5 : a = 0x3
  · rw [if_pos hh5]; exact (by decide : (0:Nat) < 16)
  rw [if_neg hh5]
  by_cases hh6 : a = 0x4
  · rw [if_pos hh6]; exact (by decide : (0:Nat) < 16)
  rw [if_neg hh6]
  by_cases hh7 : a = 0x5 ∧ e = 0x0
  · rw [if_pos hh7]; exact (by decide : (0:Nat) < 16)
  rw [if_neg hh7]
  by_cases hh8 : a = 0x6
  · rw [if_pos hh8]; exact (by decide : (0:Nat) < 16)
  rw [if_neg hh8]
  by_cases hh9 : a = 0x7
  · rw [if_pos hh9]; exact (by decide : (0:Nat) < 16)
  rw [if_neg hh9]
  by_cases hh10 : a = 0x8 ∧ e = 0x0
  · rw [if_pos hh10]; exact (by decide : (0:Nat) < 16)
  rw [if_neg hh10]
  by_cases hh11 : a = 0x8 ∧ e = 0x1
  · rw [if_pos hh11]; exact (by decide : (0:Nat) < 16)
  rw [if_neg hh11]
  by_cases hh12 : a = 0x8 ∧ e = 0x2
  · rw [if_pos hh12]; exact (by decide : (0:Nat) < 16)
  rw [if_neg hh12]
  by_cases hh13 : a = 0x8 ∧ e = 0x3
  · rw [if_pos hh13]; exact (by decide : (0:Nat) < 16)
  rw [if_neg hh13]
  by_cases hh14 : a = 0x8 ∧ e = 0x4
  · rw [if_pos hh14]; exact (by decide : (0:Nat) < 16)
  rw [if_neg hh14]
  by_cases hh15 : a = 0x8 ∧ e = 0x5
  · rw [if_pos hh15]; exact (by decide : (0:Nat) < 16)
  rw [if_neg hh15]
  by_cases hh16 : a = 0x8 ∧ e = 0x6
  · rw [if_pos hh16]; exact (by decide : (0:Nat) < 16)
  rw [if_neg hh16]
  by_cases hh17 : a = 0x8 ∧ e = 0x7
  · rw [if_pos hh17]; exact (by decide : (0:Nat) < 16)
  rw [if_neg hh17]
  by_cases hh18 : a = 0x8 ∧ e = 0xE
  · rw [if_pos hh18]; exact (by decide : (0:Nat) < 16)
  rw [if_neg hh18]
  by_cases hh19 : a = 0x9 ∧ e = 0x0
  · rw [if_pos hh19]; exact (by decide : (0:Nat) < 16)
  rw [if_neg hh19]
  by_cases hh20 : a = 0xA
  · rw [if_pos hh20]; exact (by decide : (0:Nat) < 16)
  rw [if_neg hh20]
  by_cases hh21 : a = 0xB
  · rw [if_pos hh21]; exact (by decide : (0:Nat) < 16)
  rw [if_neg hh21]
  by_cases hh22 : a = 0xC
  · rw [if_pos hh22]; exact (by decide : (0:Nat) < 16)
  rw [if_neg hh22]
  by_cases hh23 : a = 0xD
  · rw [if_pos hh23]; exact h4
  rw [if_neg hh23]
  by_cases hh24 : a = 0xE ∧ c = 0x9 ∧ e = 0xE
  · rw [if_pos hh24]; exact (by decide : (0:Nat) < 16)
  rw [if_neg hh24]
  by_cases hh25 : a = 0xE ∧ c = 0xA ∧ e = 0x1
  · rw [if_pos hh25]; exact (by decide : (0:Nat) < 16)
  rw [if_neg hh25]
  by_cases hh26 : a = 0xF ∧ c = 0x0 ∧ e = 0x7
  · rw [if_pos hh26]; exact (by decide : (0:Nat) < 16)
  rw [if_neg hh26]
  by_cases hh27 : a = 0xF ∧ c = 0x0 ∧ e = 0xA
  · rw [if_pos hh27]; exact (by decide : (0:Nat) < 16)
  rw [if_neg hh27]
  by_cases hh28 : a = 0xF ∧ c = 0x1 ∧ e = 0x5
  · rw [if_pos hh28]; exact (by decide : (0:Nat) < 16)
  rw [if_neg hh28]
  by_cases hh29 : a = 0xF ∧ c = 0x1 ∧ e = 0x8
  · rw [if_pos hh29]; exact (by decide : (0:Nat) < 16)
  rw [if_neg hh29]
  by_cases hh30 : a = 0xF ∧ c = 0x1 ∧ e = 0xE
  · rw [if_pos hh30]; exact (by decide : (0:Nat) < 16)
  rw [if_neg hh30]
  by_cases hh31 : a = 0xF ∧ c = 0x2 ∧ e = 0x9
  · rw [if_pos hh31]; exact (by decide : (0:Nat) < 16)
  rw [if_neg hh31]
  by_cases hh32 : a = 0xF ∧ c = 0x3 ∧ e = 0x3
  · rw [if_pos hh32]; exact (by decide : (0:Nat) < 16)
  rw [if_neg hh32]
  by_cases hh33 : a = 0xF ∧ c = 0x5 ∧ e = 0x5
  · rw [if_pos hh33]; exact (by decide : (0:Nat) < 16)
  rw [if_neg hh33]
  by_cases hh34 : a = 0xF ∧ c = 0x6 ∧ e = 0x5
  · rw [if_pos hh34]; exact (by decide : (0:Nat) < 16)
  rw [if_neg hh34]
  exact (by decide : (0:Nat) < 16)

theorem decode_drw_bound (op x y n : Nat)
    (h : decode op = some (.drw x y n)) : n < 16 := by
  have hlt := drwN_lt op
  rw [h] at hlt
  exact hlt

theorem execute_drw_eq (s : Chip8) (rnd op x y n : Nat)
    (hdec : decode op = some (.drw x y n))
    (hin : ∀ r, r < n → s.i_register + r < RAM_SIZE) :
    execute s rnd op = some { s with
      screen := (toggles s.screen false
        (spritePositions s.ram s.i_register (s.v_registers x) (s.v_registers y) n)).1,
      v_registers := updf s.v_registers 15
        (if (toggles s.screen false
          (spritePositions s.ram s.i_register (s.v_registers x) (s.v_registers y) n)).2
         then 1 else 0) } := by
  unfold execute
  rw [hdec]
  unfold execInstr
  dsimp only []
  rw [drawRowsAux_spec s.ram s.i_register (s.v_registers x) (s.v_registers y) n
    s.screen false hin]
  rfl

/-- C3: executing (D,x,y,n) with all n sprite bytes readable: every set bit
of row r, bit b toggles exactly the pixel at column (Vx + b) mod 64 and row
(Vy + r) mod 32; every position hit by no set bit is unchanged; afterwards
the flag register V15 is 1 iff some toggled pixel was on before its toggle
(equivalently, before the draw: all toggled positions are distinct), else 0. -/
theorem C3_draw (s : Chip8) (rnd op x y n : Nat)
    (hdec : decode op = some (.drw x y n))
    (hin : s.i_register + n ≤ RAM_SIZE) :
    (∀ r b, r < n → b < 8 → s.ram (s.i_register + r) &&& (128 >>> b) ≠ 0 →
      ((execute s rnd op).map fun t =>
          t.screen (sprPos (s.v_registers x) (s.v_registers y) r b)) =
        some (!(s.screen (sprPos (s.v_registers x) (s.v_registers y) r b)))) ∧
    (∀ q, (∀ r b, r < n → b < 8 →
        s.ram (s.i_register + r) &&& (128 >>> b) ≠ 0 →
        q ≠ sprPos (s.v_registers x) (s.v_registers y) r b) →
      ((execute s rnd op).map fun t => t.screen q) = some (s.screen q)) ∧
    ((∃ r b, r < n ∧ b < 8 ∧ s.ram (s.i_register + r) &&& (128 >>> b) ≠ 0 ∧
        s.screen (sprPos (s.v_registers x) (s.v_registers y) r b) = true) →
      ((execute s rnd op).map fun t => t.v_registers 15) = some 1) ∧
    (¬(∃ r b, r < n ∧ b < 8 ∧ s.ram (s.i_register + r) &&& (128 >>> b) ≠ 0 ∧
        s.screen (sprPos (s.v_registers x) (s.v_registers y) r b) = true) →
      ((execute s rnd op).map fun t => t.v_registers 15) = some 0) := by
  have hn16 : n < 16 := decode_drw_bound op x y n hdec
  have hnd := spritePositions_nodup s.ram s.i_register
    (s.v_registers x) (s.v_registers y) n (by omega)
  rw [execute_drw_eq s rnd op x y n hdec (fun r hr => by omega)]
  simp only [Option.map_some', Option.some.injEq]
  refine ⟨?_, ?_, ?_, ?_⟩
  · intro r b hr hb hset
    have hmem : sprPos (s.v_registers x) (s.v_registers y) r b ∈
        spritePositions s.ram s.i_register (s.v_registers x) (s.v_registers y) n :=
      (spritePositions_mem _ _ _ _ n _).mpr ⟨r, hr, b, hb, hset, rfl⟩
    rw [toggles_screen _ _ _ _ hnd, if_pos hmem]
  · intro q hq
    have hmem : q ∉
        spritePositions s.ram s.i_register (s.v_registers x) (s.v_registers y) n := by
      intro hc
      rcases (spritePositions_mem _ _ _ _ n q).mp hc with ⟨r, hr, b, hb, hset, hq2⟩
      exact hq r b hr hb hset hq2
    rw [toggles_screen _ _ _ _ hnd, if_neg hmem]
  · rintro ⟨r, b, hr, hb, hset, hon⟩
    have hmem : sprPos (s.v_registers x) (s.v_registers y) r b ∈
        spritePositions s.ram s.i_register (s.v_registers x) (s.v_registers y) n :=
      (spritePositions_mem _ _ _ _ n _).mpr ⟨r, hr, b, hb, hset, rfl⟩
    have hfl : (toggles s.screen false
        (spritePositions s.ram s.i_register (s.v_registers x) (s.v_registers y) n)).2 = true :=
      (toggles_flag _ _ _ hnd).mpr (Or.inr ⟨_, hmem, hon⟩)
    rw [hfl]
    simp [updf]
  · intro hno
    have hfl : (toggles s.screen false
        (spritePositions s.ram s.i_register (s.v_registers x) (s.v_registers y) n)).2 = false := by
      by_contra hc
      have ht : (toggles s.screen false
          (spritePositions s.ram s.i_register (s.v_registers x) (s.v_registers y) n)).2 = true := by
        cases hb2 : (toggles s.screen false
            (spritePositions s.ram s.i_register (s.v_registers x) (s.v_registers y) n)).2 with
        | false => exact absurd hb2 hc
        | true => rfl
      rcases (toggles_flag _ _ _ hnd).mp ht with hf | ⟨p, hp, hon⟩
      · exact Bool.noConfusion hf
      · rcases (spritePositions_mem _ _ _ _ n p).mp hp with ⟨r, hr, b, hb, hset, hq⟩
        exact hno ⟨r, b, hr, hb, hset, by rw [← hq]; exact hon⟩
    rw [hfl]
    simp [updf]

set_option maxRecDepth 40000 in
/-- C3 witness: drawing the 1-row sprite 0x80 at (0,0) on a cleared screen
toggles pixel 0 on. -/
theorem C3_witness :
    ((execute drawState 0 0xD001).map fun t => t.screen (sprPos 0 0 0 0)) =
      some true :=
  (C3_draw drawState 0 0xD001 0 0 1 (by decide) (by decide)).1 0 0
    (by decide) (by decide) (by decide)

theorem execute_cls_eq (s : Chip8) (rnd : Nat) :
    execute s rnd 0x00E0 = some { s with screen := fun _ => false } := by
  unfold execute
  rw [show decode 0x00E0 = some Instr.cls from by decide]
  rfl

theorem execute_drw_bounds (s t : Chip8) (rnd op x y n : Nat)
    (hdec : decode op = some (.drw x y n))
    (h : execute s rnd op = some t) :
    ∀ r, r < n → s.i_register + r < RAM_SIZE := by
  unfold execute at h
  rw [hdec] at h
  unfold execInstr at h
  dsimp only [] at h
  cases hdr : drawRowsAux s.ram s.i_register (s.v_registers x) (s.v_registers y)
      (List.range n) s.screen false with
  | none => rw [hdr] at h; exact Option.noConfusion h
  | some sf =>
    intro r hr
    exact drawRowsAux_some_bounds s.ram s.i_register _ _ _ _ _ sf hdr r
      (List.mem_range.mpr hr)

/-- C9: clearing the display, drawing a sprite, then executing the identical
draw again with the coordinate registers unchanged (the same position) and no
intervening pixel changes restores every pixel to off. -/
theorem C9_double_draw (s s1 s2 s3 : Chip8) (rnd1 rnd2 rnd3 op x y n : Nat)
    (hdec : decode op = some (.drw x y n))
    (h1 : execute s rnd1 0x00E0 = some s1)
    (h2 : execute s1 rnd2 op = some s2)
    (h3 : execute s2 rnd3 op = some s3)
    (hx : s2.v_registers x = s1.v_registers x)
    (hy : s2.v_registers y = s1.v_registers y) :
    ∀ q, s3.screen q = false := by
  have hn16 : n < 16 := decode_drw_bound op x y n hdec
  rw [execute_cls_eq] at h1
  have hs1 : s1 = { s with screen := fun _ => false } := (Option.some.inj h1).symm
  subst hs1
  have hbounds1 := execute_drw_bounds _ _ rnd2 op x y n hdec h2
  rw [execute_drw_eq _ rnd2 op x y n hdec hbounds1] at h2
  have hs2 := (Option.some.inj h2).symm
  subst hs2
  have hbounds2 := execute_drw_bounds _ _ rnd3 op x y n hdec h3
  rw [execute_drw_eq _ rnd3 op x y n hdec hbounds2] at h3
  have hs3 := (Option.some.inj h3).symm
  subst hs3
  intro q
  dsimp only [] at hx hy ⊢
  rw [hx, hy]
  have hnd := spritePositions_nodup s.ram s.i_register
    (s.v_registers x) (s.v_registers y) n (by omega)
  rw [toggles_screen _ _ _ _ hnd, toggles_screen _ _ _ _ hnd]
  by_cases hq : q ∈ spritePositions s.ram s.i_register
      (s.v_registers x) (s.v_registers y) n
  · rw [if_pos hq, if_pos hq]
    simp
  · rw [if_neg hq, if_neg hq]

set_option maxRecDepth 40000 in
/-- C9 witness: clear, draw sprite 0x80 at (0,0), draw it again: pixel 0 is
off afterwards. -/
theorem C9_witness : c9s3.screen 0 = false :=
  C9_double_draw drawState c9s1 c9s2 c9s3 0 0 0 0xD001 0 0 1
    (by decide) rfl rfl rfl (by decide) (by decide) 0

theorem writeList_lt (l : List Nat) :
    ∀ (f : Nat → Nat) (st a : Nat), a < st → writeList f st l a = f a := by
  induction l with
  | nil => intro f st a _; rfl
  | cons b rest ih =>
    intro f st a ha
    show writeList (updf f st b) (st + 1) rest a = f a
    rw [ih (updf f st b) (st + 1) a (by omega)]
    unfold updf
    rw [if_neg (by omega)]

theorem storeRegs_lt (ram v : Nat → Nat) (base : Nat) :
    ∀ (x a : Nat), a < base → storeRegs ram v base x a = ram a := by
  intro x
  induction x with
  | zero =>
    intro a ha
    show updf ram base (v 0) a = ram a
    unfold updf
    rw [if_neg (by omega)]
  | succ x ih =>
    intro a ha
    show updf (storeRegs ram v base x) (base + (x + 1)) (v (x + 1)) a = ram a
    unfold updf
    rw [if_neg (by omega)]
    exact ih a ha

theorem tick_timers_ram_eq (s : Chip8) : (s.tick_timers).ram = s.ram := by
  unfold Chip8.tick_timers
  by_cases hd : s.delay_timer_register > 0 <;>
    by_cases hs : s.sound_timer_register > 0 <;> simp [hd, hs]

theorem execute_preserves_low_ram (s : Chip8) (rnd op : Nat) (t : Chip8)
    (hex : execute s rnd op = some t) (hi : FONTSET_SIZE ≤ s.i_register) :
    ∀ a, a < FONTSET_SIZE → t.ram a = s.ram a := by
  intro a ha
  unfold FONTSET_SIZE at hi ha
  unfold execute at hex
  cases hdec : decode op with
  | none => rw [hdec] at hex; exact Option.noConfusion hex
  | some instr =>
    rw [hdec] at hex
    dsimp only [] at hex
    cases instr
    case ret =>
      simp only [execInstr] at hex
      unfold Chip8.pop at hex
      split_ifs at hex
      · simp only [Option.map_some'] at hex
        obtain rfl := (Option.some.inj hex).symm
        rfl
      · exact Option.noConfusion hex
    case call nnn =>
      simp only [execInstr] at hex
      unfold Chip8.push at hex
      split_ifs at hex
      · simp only [Option.map_some'] at hex
        obtain rfl := (Option.some.inj hex).symm
        rfl
      · exact Option.noConfusion hex
    case seByte x kk =>
      simp only [execInstr] at hex
      obtain rfl := (Option.some.inj hex).symm
      split_ifs <;> rfl
    case sneByte x kk =>
      simp only [execInstr] at hex
      obtain rfl := (Option.some.inj hex).symm
      split_ifs <;> rfl
    case seReg x y =>
      simp only [execInstr] at hex
      obtain rfl := (Option.some.inj hex).symm
      split_ifs <;> rfl
    case sneReg x y =>
      simp only [execInstr] at hex
      obtain rfl := (Option.some.inj hex).symm
      split_ifs <;> rfl
    case skp x =>
      simp only [execInstr] at hex
      split_ifs at hex
      · obtain rfl := (Option.some.inj hex).symm
        rfl
      · obtain rfl := (Option.some.inj hex).symm
        rfl
    case sknp x =>
      simp only [execInstr] at hex
      split_ifs at hex
      · obtain rfl := (Option.some.inj hex).symm
        rfl
      · obtain rfl := (Option.some.inj hex).symm
        rfl
    case drw x y n =>
      simp only [execInstr] at hex
      cases hdr : drawRowsAux s.ram s.i_register (s.v_registers x)
          (s.v_registers y) (List.range n) s.screen false with
      | none => rw [hdr] at hex; exact Option.noConfusion hex
      | some sf =>
        rw [hdr] at hex
        simp only [Option.map_some'] at hex
        obtain rfl := (Option.some.inj hex).symm
        rfl
    case waitKey x =>
      simp only [execInstr] at hex
      cases hscan : scanKeysFrom s.key_states 0 NUM_KEYS with
      | none =>
        rw [hscan] at hex
        obtain rfl := (Option.some.inj hex).symm
        rfl
      | some k =>
        rw [hscan] at hex
        obtain rfl := (Option.some.inj hex).symm
        rfl
    case bcd x =>
      simp only [execInstr] at hex
      split_ifs at hex
      · obtain rfl := (Option.some.inj hex).symm
        show updf _ (s.i_register + 2) _ a = s.ram a
        unfold updf
        rw [if_neg (by omega), if_neg (by omega), if_neg (by omega)]
    case stRegs x =>
      simp only [execInstr] at hex
      split_ifs at hex
      · obtain rfl := (Option.some.inj hex).symm
        exact storeRegs_lt s.ram s.v_registers s.i_register x a (by omega)
    case ldRegs x =>
      simp only [execInstr] at hex
      split_ifs at hex
      obtain rfl := (Option.some.inj hex).symm
      rfl
    all_goals
      simp only [execInstr] at hex
    all_goals
      obtain rfl := (Option.some.inj hex).symm
    all_goals rfl

set_option maxRecDepth 40000 in
theorem new_font_loaded :
    ∀ a, a < FONTSET_SIZE → Chip8.new.ram a = FONTSET.getD a 0 := by
  decide

/-- C8 (amended): construction loads the 16 five-byte glyphs into addresses
0-79; timer ticks, key updates and in-contract loads never touch them, and
every instruction execution whose address register is at least 80 leaves them
unchanged.  (The BCD-store Fx33 and register-dump Fx55 instructions with the
address register below 80 do overwrite font bytes, so the unconditional claim
fails.) -/
theorem C8_font_region (s : Chip8) :
    (∀ a, a < FONTSET_SIZE → Chip8.new.ram a = FONTSET.getD a 0) ∧
    (∀ rnd op t, execute s rnd op = some t → FONTSET_SIZE ≤ s.i_register →
      ∀ a, a < FONTSET_SIZE → t.ram a = s.ram a) ∧
    (∀ a, (s.tick_timers).ram a = s.ram a) ∧
    (∀ i p t, s.keypress i p = some t → ∀ a, t.ram a = s.ram a) ∧
    (∀ data t, s.load data = some t → ∀ a, a < START_ADDR → t.ram a = s.ram a) := by
  refine ⟨new_font_loaded, ?_, ?_, ?_, ?_⟩
  · intro rnd op t hex hi a ha
    exact execute_preserves_low_ram s rnd op t hex hi a ha
  · intro a
    rw [tick_timers_ram_eq]
  · intro i p t hk a
    unfold Chip8.keypress at hk
    split_ifs at hk
    obtain rfl := (Option.some.inj hk).symm
    rfl
  · intro data t hl a ha
    unfold Chip8.load at hl
    split_ifs at hl
    obtain rfl := (Option.some.inj hl).symm
    show writeList s.ram START_ADDR data a = s.ram a
    exact writeList_lt data s.ram START_ADDR a (by unfold START_ADDR at ha ⊢; omega)

set_option maxRecDepth 40000 in
/-- C8 counterexample: on a fresh machine (address register 0, register 0
zero) the BCD instruction 0xF033 overwrites font byte 0: it was 0xF0 = 240
and becomes 0. -/
theorem C8_counterexample :
    Chip8.new.ram 0 = 240 ∧
    ((execute Chip8.new 0 0xF033).map fun t => t.ram 0) = some 0 ∧
    ((execute Chip8.new 0 0xF033).map fun t => t.ram 0) ≠ some (Chip8.new.ram 0) := by
  refine ⟨by decide, by decide, by decide⟩

set_option maxRecDepth 40000 in
/-- C8 witness: with the address register at 100 the BCD instruction leaves
font byte 0 untouched, and a fresh machine holds glyph byte 0xF0 there. -/
theorem C8_witness :
    fontSafeAfter.ram 0 = fontSafeState.ram 0 ∧
    Chip8.new.ram 0 = FONTSET.getD 0 0 := by
  constructor
  · exact (C8_font_region fontSafeState).2.1 0 0xF033 fontSafeAfter rfl
      (by decide) 0 (by decide)
  · exact (C8_font_region fontSafeState).1 0 (by decide)
